import Mathlib

/-!
Shallow embedding of the HTTP server in `src/app/main.py`.

Modelling conventions:
* Python `str` is Lean `String`; `len` on a `str` is `String.length`
  (character count).  Byte strings are `List Nat` (or `List Char` where a
  byte stream is scanned for a delimiter), and `str.encode()` (UTF-8) is
  `strEncode` below, implemented from the UTF-8 encoding rules.
* A Python `dict[str, str]` is an insertion-ordered association list with
  unique keys: `dictSet` overwrites in place (keeping the original
  position, as CPython dicts do) and `dictGet` looks a key up.
* Fallible Python code (exceptions such as `ValueError` from `split`
  unpacking or `KeyError` from `STASTUS[...]`) returns `Option`.
* The filesystem under the target directory is an explicit association
  list from the path following `/files/` to file contents; `os.path.getsize`
  is the UTF-8 byte length of the stored text content.
* `gzip.compress` is a Python standard-library function external to the
  repository; it is a parameter `compress : String → List Nat` of the
  definitions that use it (taking the text body, since the code always
  writes `gzip.compress(self.body.encode())`).
* Socket loops (`while True: ... conn.recv(1024)`) are embedded as
  fuel-indexed functions over the list of chunks the peer sends before
  closing; once that list is exhausted every further `recv` returns the
  empty chunk, exactly as `recv` on a peer-closed TCP socket returns
  `b""` forever.
-/

/-- UTF-8 encoding of one character, from the standard 1–4 byte rules
(`str.encode()` in the source). -/
def charUtf8 (c : Char) : List Nat :=
  let n := c.toNat
  if n < 0x80 then [n]
  else if n < 0x800 then [0xC0 + n / 64, 0x80 + n % 64]
  else if n < 0x10000 then
    [0xE0 + n / 4096, 0x80 + (n / 64) % 64, 0x80 + n % 64]
  else
    [0xF0 + n / 262144, 0x80 + (n / 4096) % 64, 0x80 + (n / 64) % 64,
     0x80 + n % 64]

/-- `s.encode()`: UTF-8 bytes of a Python string. -/
def strEncode (s : String) : List Nat :=
  s.data.flatMap charUtf8

/-- Substring test on character lists: does `hay` contain `needle` as a
contiguous run?  Embeds Python's `needle in hay`. -/
def hasSub (needle : List Char) : List Char → Bool
  | [] => needle.isEmpty
  | c :: rest => needle.isPrefixOf (c :: rest) || hasSub needle rest

/-- Python `needle in hay` on strings. -/
def strContains (hay needle : String) : Bool :=
  hasSub needle.data hay.data

/-- First-occurrence split: Python `s.split(sep, 1)` when `sep` occurs,
`none` when it does not (so that tuple unpacking of the result raises). -/
def splitFirst (sep : List Char) : List Char → Option (List Char × List Char)
  | [] => none
  | c :: rest =>
    if sep.isPrefixOf (c :: rest) then some ([], (c :: rest).drop sep.length)
    else (splitFirst sep rest).map fun p => (c :: p.1, p.2)

/-- Auxiliary fuel-indexed full split. -/
def splitSepAux (sep : List Char) : Nat → List Char → List (List Char)
  | 0, l => [l]
  | fuel + 1, l =>
    match splitFirst sep l with
    | none => [l]
    | some (pre, post) => pre :: splitSepAux sep fuel post

/-- Python `s.split(sep)` (all occurrences, empty pieces kept). -/
def splitSep (sep l : List Char) : List (List Char) :=
  splitSepAux sep l.length l

/-- String wrapper for `splitFirst`. -/
def splitFirstStr (sep s : String) : Option (String × String) :=
  (splitFirst sep.data s.data).map fun p => (⟨p.1⟩, ⟨p.2⟩)

/-- String wrapper for `splitSep`. -/
def splitSepStr (sep s : String) : List String :=
  (splitSep sep.data s.data).map fun l => ⟨l⟩

/-- ASCII whitespace stripped by Python's `str.strip()` / skipped by
`int()`. -/
def isPySpace (c : Char) : Bool :=
  c = ' ' || c = '\t' || c = '\n' || c = '\r' || c = '\x0b' || c = '\x0c'

/-- Python `s.strip()`: remove whitespace at both ends. -/
def pyStrip (s : String) : String :=
  ⟨(((s.data.dropWhile isPySpace).reverse.dropWhile isPySpace).reverse)⟩

/-- Decimal digit run accumulator for `pyInt`; `none` until at least one
digit has been seen, `none` on any non-digit. -/
def parseDigits : List Char → Option Nat → Option Nat
  | [], acc => acc
  | c :: rest, acc =>
    if c.isDigit then
      parseDigits rest (some ((acc.getD 0) * 10 + (c.toNat - 48)))
    else none

/-- Python `int(s)` on an optionally signed decimal numeral with
surrounding whitespace; `none` is the `ValueError`. -/
def pyInt (s : String) : Option Int :=
  match (pyStrip s).data with
  | '-' :: rest => (parseDigits rest none).map fun n => -(n : Int)
  | '+' :: rest => (parseDigits rest none).map fun n => (n : Int)
  | l => (parseDigits l none).map fun n => (n : Int)

/-- Insertion-ordered string dictionary (CPython `dict[str, str]`). -/
abbrev Headers := List (String × String)

/-- `d.get(k)` / `d[k]` lookup. -/
def dictGet (h : Headers) (k : String) : Option String :=
  match h with
  | [] => none
  | (k', v) :: rest => if k' = k then some v else dictGet rest k

/-- `d.get(k, default)`. -/
def dictGetD (h : Headers) (k d : String) : String :=
  (dictGet h k).getD d

/-- `d[k] = v`: overwrite in place, keeping the original position of an
existing key; append a new key at the end. -/
def dictSet (h : Headers) (k v : String) : Headers :=
  match h with
  | [] => [(k, v)]
  | (k', v') :: rest =>
    if k' = k then (k, v) :: rest else (k', v') :: dictSet rest k v

/-- `ENCODER = ["gzip"]` (main.py line 12). -/
def ENCODER : List String := ["gzip"]

/-- `STASTUS` dict (main.py lines 14–18); lookup of any other status key
raises `KeyError`, hence `Option`. -/
def STASTUS (s : Nat) : Option String :=
  if s = 200 then some "OK"
  else if s = 201 then some "Created"
  else if s = 404 then some "Not Found"
  else none

/-- `HTTPRequest` (main.py lines 21–40). -/
structure HTTPRequest where
  method : String
  path : String
  version : String
  headers : Headers
  body : String
deriving DecidableEq, Repr

/-- Header-line loop of `HTTPRequest.from_raw` (main.py lines 55–60):
stop at the first empty line, fail (`ValueError`) on a line with no `:`,
otherwise split on the first `:`, strip both sides, last-write-wins. -/
def parseHeaderLines : List String → Headers → Option Headers
  | [], acc => some acc
  | line :: rest, acc =>
    if line = "" then some acc
    else
      match splitFirstStr ":" line with
      | none => none
      | some (h, v) => parseHeaderLines rest (dictSet acc (pyStrip h) (pyStrip v))

/-- `HTTPRequest.from_raw` (main.py lines 42–61): split head from body at
the first `\r\n\r\n`, split the head into `\r\n` lines, split the request
line on single spaces into exactly three tokens, then parse header lines. -/
def HTTPRequest.from_raw (raw : String) : Option HTTPRequest :=
  match splitFirstStr "\r\n\r\n" raw with
  | none => none
  | some (head, body) =>
    match splitSepStr "\r\n" head with
    | [] => none
    | requestLine :: headerLines =>
      match splitSepStr " " requestLine with
      | [method, path, version] =>
        match parseHeaderLines headerLines [] with
        | none => none
        | some hs => some ⟨method, path, version, hs, body⟩
      | _ => none

/-- `HTTPResponse` (main.py lines 64–120). -/
structure HTTPResponse where
  version : String
  status : Nat
  headers : Headers
  body : String
deriving DecidableEq, Repr

/-- `HTTPResponse.ok` (main.py lines 87–102). -/
def HTTPResponse.ok (headers : Headers) (body : String) : HTTPResponse :=
  ⟨"HTTP/1.1", 200, headers, body⟩

/-- `HTTPResponse.not_found` (main.py lines 104–111). -/
def HTTPResponse.not_found : HTTPResponse :=
  ⟨"HTTP/1.1", 404, [], ""⟩

/-- `HTTPResponse.created` (main.py lines 113–120). -/
def HTTPResponse.created : HTTPResponse :=
  ⟨"HTTP/1.1", 201, [], ""⟩

/-- `"".join(header + ": " + value + "\r\n" for ...)` (main.py 129–131). -/
def headersToStr (hs : Headers) : String :=
  match hs with
  | [] => ""
  | p :: rest => p.1 ++ ": " ++ p.2 ++ "\r\n" ++ headersToStr rest

/-- `HTTPResponse.__bytes__` (main.py lines 122–133), parameterised by the
external `gzip.compress` (applied to the encoded body).  If the
`Content-Encoding` header is present with a truthy (non-empty) value, the
body is compressed and `Content-Length` is overwritten with the compressed
byte length; the status line uses `STASTUS[self.status]`, whose `KeyError`
on an unknown status is the `none` case (the source raises it while
building the status line, after the body branch; the observable output is
the same). -/
def HTTPResponse.toBytes (compress : String → List Nat)
    (r : HTTPResponse) : Option (List Nat) :=
  match STASTUS r.status with
  | none => none
  | some reason =>
    if dictGetD r.headers "Content-Encoding" "" ≠ "" then
      let body := compress r.body
      let headers := dictSet r.headers "Content-Length" (toString body.length)
      some (strEncode (r.version ++ " " ++ toString r.status ++ " " ++ reason
        ++ "\r\n" ++ headersToStr headers ++ "\r\n") ++ body)
    else
      some (strEncode (r.version ++ " " ++ toString r.status ++ " " ++ reason
        ++ "\r\n" ++ headersToStr r.headers ++ "\r\n") ++ strEncode r.body)

/-- The five handler functions registered in main.py lines 251–255. -/
inductive Handler where
  | home
  | echo
  | user_agent
  | read_file
  | post_file
deriving DecidableEq, Repr

/-- No character of the list is a newline (`.` in a Python regex without
`re.DOTALL` never matches `\n`). -/
def noNl (l : List Char) : Bool :=
  l.all (fun c => c ≠ '\n')

/-- Python `$` (no `re.MULTILINE`) after a greedy `(.*)`: the remaining
characters match `(.*)$` iff they contain no newline, or end with a single
newline preceded by none. -/
def echoTailOk (l : List Char) : Bool :=
  noNl l || (decide (l.getLast? = some '\n') && noNl l.dropLast)

/-- The four compiled route patterns (main.py lines 251–255). -/
inductive Pattern where
  | rootP      -- re.compile(r"^/$")
  | echoP      -- re.compile(r"^/echo/(?P<message>.*)$")
  | agentP     -- re.compile(r"/user-agent")
  | filesP     -- re.compile(r"^/files/(?P<file>.*)")
deriving DecidableEq, Repr

/-- The characters of `"/echo/"`. -/
def echoPre : List Char := ['/', 'e', 'c', 'h', 'o', '/']

/-- The characters of `"/files/"`. -/
def filesPre : List Char := ['/', 'f', 'i', 'l', 'e', 's', '/']

/-- The characters of `"/user-agent"`. -/
def agentPre : List Char := ['/', 'u', 's', 'e', 'r', '-', 'a', 'g', 'e', 'n', 't']

theorem echoPre_eq : echoPre = "/echo/".data := by decide

theorem filesPre_eq : filesPre = "/files/".data := by decide

theorem agentPre_eq : agentPre = "/user-agent".data := by decide

/-- `pattern.match(path)` converted to a boolean (Python `re.match`
anchors at the start of the string; `$` also matches just before a
trailing newline; `.` does not match `\n`). -/
def Pattern.pmatch : Pattern → String → Bool
  | .rootP, s => decide (s = "/" ∨ s = "/\n")
  | .echoP, s =>
    echoPre.isPrefixOf s.data && echoTailOk (s.data.drop echoPre.length)
  | .agentP, s => agentPre.isPrefixOf s.data
  | .filesP, s => filesPre.isPrefixOf s.data

/-- The route table built by the five `add_route` calls
(main.py lines 251–255), in registration order. -/
def routes : List (String × Pattern × Handler) :=
  [("GET", .rootP, .home),
   ("GET", .echoP, .echo),
   ("GET", .agentP, .user_agent),
   ("GET", .filesP, .read_file),
   ("POST", .filesP, .post_file)]

/-- `find_handler` (main.py lines 155–170): scan `routes` in order and
return the handler of the first binding whose method equals the request
method and whose pattern matches the path. -/
def find_handler (method path : String) : Option Handler :=
  (routes.find? fun r => method = r.1 && r.2.1.pmatch path).map fun r => r.2.2

/-- The filesystem below the target directory: contents of the file named
by the path segment after `/files/`. -/
abbrev FS := List (String × String)

/-- `Path.exists` + `open(...).read()`. -/
def fsGet (fs : FS) (name : String) : Option String :=
  dictGet fs name

/-- `open(full_path, "w").write(content)`: overwrite or create. -/
def fsSet (fs : FS) (name content : String) : FS :=
  dictSet fs name content

/-- `re.sub(r"^...", "", path)`: remove the pattern once at the start if
present (a `^`-anchored pattern can only match at position 0). -/
def stripStart (pre : List Char) (s : List Char) : List Char :=
  if pre.isPrefixOf s then s.drop pre.length else s

/-- `re.sub(r"^/echo/", "", request.path)` (main.py line 210). -/
def subEcho (path : String) : String :=
  ⟨stripStart echoPre path.data⟩

/-- `re.sub(r"^/files/", "", request.path)` (main.py lines 228, 237). -/
def subFiles (path : String) : String :=
  ⟨stripStart filesPre path.data⟩

/-- `home` (main.py lines 205–206). -/
def home (_req : HTTPRequest) : HTTPResponse :=
  HTTPResponse.ok [] ""

/-- `echo` (main.py lines 209–215).  `len(message)` is the character
count of the Python string. -/
def echo (req : HTTPRequest) : HTTPResponse :=
  let message := subEcho req.path
  HTTPResponse.ok
    [("Content-Type", "text/plain"),
     ("Content-Length", toString message.length)]
    message

/-- `user_agent` (main.py lines 218–224). -/
def user_agent (req : HTTPRequest) : HTTPResponse :=
  let ua := dictGetD req.headers "User-Agent" ""
  HTTPResponse.ok
    [("Content-Type", "text/plain"),
     ("Content-Length", toString ua.length)]
    ua

/-- `read_file` (main.py lines 236–248): 404 when the file does not
exist; otherwise `os.path.getsize` (the on-disk byte size, i.e. the UTF-8
byte length of the text content) goes into `Content-Length` and the text
content becomes the body. -/
def read_file (fs : FS) (req : HTTPRequest) : HTTPResponse :=
  let path := subFiles req.path
  match fsGet fs path with
  | none => HTTPResponse.not_found
  | some content =>
    HTTPResponse.ok
      [("Content-Type", "application/octet-stream"),
       ("Content-Length", toString (strEncode content).length)]
      content

/-- `post_file` (main.py lines 227–233): write the request body verbatim
(overwriting) and answer 201. -/
def post_file (fs : FS) (req : HTTPRequest) : HTTPResponse × FS :=
  (HTTPResponse.created, fsSet fs (subFiles req.path) req.body)

/-- Run one handler; the filesystem is threaded explicitly (only
`post_file` changes it). -/
def runHandler (fs : FS) (h : Handler) (req : HTTPRequest) :
    HTTPResponse × FS :=
  match h with
  | .home => (home req, fs)
  | .echo => (echo req, fs)
  | .user_agent => (user_agent req, fs)
  | .read_file => (read_file fs req, fs)
  | .post_file => post_file fs req

/-- Dispatch part of `handle_request` (main.py lines 192–196): call the
resolved handler, or fall back to a 404. -/
def route_response (fs : FS) (req : HTTPRequest) : HTTPResponse × FS :=
  match find_handler req.method req.path with
  | some h => runHandler fs h req
  | none => (HTTPResponse.not_found, fs)

/-- Negotiation part of `handle_request` (main.py lines 197–202): take
the `Accept-Encoding` value (default `""`), and for the first entry of
`ENCODER` contained in it as a substring, set `Content-Encoding` to that
entry (the `break` makes it first-match). -/
def applyEncoding (req : HTTPRequest) (resp : HTTPResponse) : HTTPResponse :=
  match ENCODER.find?
      (fun enc => strContains (dictGetD req.headers "Accept-Encoding" "") enc) with
  | some enc => { resp with headers := dictSet resp.headers "Content-Encoding" enc }
  | none => resp

/-- `handle_request` (main.py lines 192–202): dispatch, then encoding
negotiation on the produced response. -/
def handle_request (fs : FS) (req : HTTPRequest) : HTTPResponse × FS :=
  (applyEncoding req (route_response fs req).1, (route_response fs req).2)

/-- The body-completion loop of `handle_client` (main.py lines 181–182):
`while len(request.body) < int(...Content-Length... or 0): body += recv`.
`cl` is the parsed `Content-Length` (an `int`, possibly negative),
`chunks` the decoded chunks still to arrive before the peer closes (after
which `recv` yields `""` forever), and the result pairs the final body
with the number of `recv` calls made; `none` means the fuel ran out with
the loop still running. -/
def recvBody (cl : Int) : Nat → String → List String → Option (String × Nat)
  | 0, _, _ => none
  | fuel + 1, body, chunks =>
    if (body.length : Int) < cl then
      match chunks with
      | c :: rest => (recvBody cl fuel (body ++ c) rest).map fun p => (p.1, p.2 + 1)
      | [] => (recvBody cl fuel body []).map fun p => (p.1, p.2 + 1)
    else some (body, 0)

/-- `int(request.headers.get("Content-Length", 0))` (main.py line 181):
`some 0` when the header is absent, the parsed integer when present, and
`none` for the `ValueError` of `int()` on a malformed numeral. -/
def contentLength (h : Headers) : Option Int :=
  match dictGet h "Content-Length" with
  | none => some 0
  | some v => pyInt v

/-- The header-framing loop of `handle_client` (main.py lines 176–178):
`raw_request = b""; while b"\r\n\r\n" not in raw_request: raw_request +=
conn.recv(1024)`.  Bytes are modelled as characters; `chunks` is what the
peer sends before closing, after which every `recv` returns the empty
chunk.  `none` means the fuel ran out with the loop still spinning. -/
def recvHeadersLoop : Nat → List Char → List (List Char) → Option (List Char)
  | 0, _, _ => none
  | fuel + 1, acc, chunks =>
    if hasSub "\r\n\r\n".data acc then some acc
    else
      match chunks with
      | c :: rest => recvHeadersLoop fuel (acc ++ c) rest
      | [] => recvHeadersLoop fuel acc []

/-- One `handle_client` iteration after the request is complete
(main.py lines 184–189): compute the response and decide whether the
connection closes; when the request carries `Connection: close`
(case-sensitive exact equality) the response gets a `Connection: close`
header and, after sending, the loop returns (tearing the socket down);
otherwise the loop continues with the next request. -/
def connectionIteration (fs : FS) (req : HTTPRequest) :
    HTTPResponse × FS × Bool :=
  if dictGet req.headers "Connection" = some "close" then
    ({ (handle_request fs req).1 with
        headers := dictSet (handle_request fs req).1.headers "Connection" "close" },
      (handle_request fs req).2, true)
  else ((handle_request fs req).1, (handle_request fs req).2, false)


/-! ### Helper lemmas about the dictionary, prefixes and substrings -/

theorem dictGet_dictSet_self (h : Headers) (k v : String) :
    dictGet (dictSet h k v) k = some v := by
  induction h with
  | nil => simp [dictSet, dictGet]
  | cons p t ih =>
    obtain ⟨a, b⟩ := p
    by_cases hk : a = k
    · simp [dictSet, hk, dictGet]
    · simp [dictSet, hk, dictGet, ih]

theorem dictGet_dictSet_ne (h : Headers) (k v k' : String) (hne : k ≠ k') :
    dictGet (dictSet h k v) k' = dictGet h k' := by
  induction h with
  | nil => simp [dictSet, dictGet, hne]
  | cons p t ih =>
    obtain ⟨a, b⟩ := p
    by_cases hk : a = k
    · subst hk
      simp [dictSet, dictGet, hne]
    · simp [dictSet, hk, dictGet, ih]

theorem isPrefixOf_append_right (d l x : List Char)
    (h : d.isPrefixOf l = true) : d.isPrefixOf (l ++ x) = true := by
  rw [List.isPrefixOf_iff_prefix] at h ⊢
  exact h.trans (List.prefix_append l x)

theorem isPrefixOf_self_append (l x : List Char) :
    l.isPrefixOf (l ++ x) = true := by
  rw [List.isPrefixOf_iff_prefix]
  exact List.prefix_append l x

theorem hasSub_nil_left (b : List Char) : hasSub [] b = true := by
  cases b with
  | nil => rfl
  | cons c r => simp [hasSub, List.isPrefixOf]

theorem hasSub_append_right (d b : List Char) :
    ∀ a, hasSub d a = true → hasSub d (a ++ b) = true := by
  intro a
  induction a with
  | nil =>
    intro h
    simp only [hasSub, List.isEmpty_iff] at h
    subst h
    exact hasSub_nil_left b
  | cons c r ih =>
    intro h
    simp only [hasSub, Bool.or_eq_true] at h
    rcases h with h | h
    · simp only [List.cons_append, hasSub, Bool.or_eq_true]
      left
      exact isPrefixOf_append_right d (c :: r) b h
    · simp only [List.cons_append, hasSub, Bool.or_eq_true]
      right
      exact ih h

theorem charUtf8_ascii (c : Char) (h : c.toNat < 128) :
    charUtf8 c = [c.toNat] := by
  simp [charUtf8, h]

theorem flatMap_charUtf8_ascii :
    ∀ l : List Char, l.all (fun c => c.toNat < 128) = true →
      (l.flatMap charUtf8).length = l.length := by
  intro l
  induction l with
  | nil => simp
  | cons c r ih =>
    intro h
    simp only [List.all_cons, Bool.and_eq_true, decide_eq_true_eq] at h
    simp [charUtf8_ascii c h.1, ih (by simpa using h.2)]

theorem strEncode_length_ascii (s : String)
    (h : s.data.all (fun c => c.toNat < 128) = true) :
    (strEncode s).length = s.length :=
  flatMap_charUtf8_ascii s.data h

/-! ### Helper lemmas about the pipeline -/

theorem runHandler_no_contentEncoding (fs : FS) (h : Handler)
    (req : HTTPRequest) :
    dictGet (runHandler fs h req).1.headers "Content-Encoding" = none := by
  cases h with
  | home => rfl
  | echo => rfl
  | user_agent => rfl
  | read_file =>
    simp only [runHandler, read_file]
    cases fsGet fs (subFiles req.path) with
    | none => rfl
    | some c => rfl
  | post_file => rfl

theorem applyEncoding_of_gzip (req : HTTPRequest) (resp : HTTPResponse)
    (h : strContains (dictGetD req.headers "Accept-Encoding" "") "gzip" = true) :
    applyEncoding req resp =
      { resp with headers := dictSet resp.headers "Content-Encoding" "gzip" } := by
  simp [applyEncoding, ENCODER, List.find?, h]

theorem applyEncoding_of_no_gzip (req : HTTPRequest) (resp : HTTPResponse)
    (h : strContains (dictGetD req.headers "Accept-Encoding" "") "gzip" = false) :
    applyEncoding req resp = resp := by
  simp [applyEncoding, ENCODER, List.find?, h]

theorem applyEncoding_status (req : HTTPRequest) (r : HTTPResponse) :
    (applyEncoding req r).status = r.status := by
  simp only [applyEncoding]
  cases ENCODER.find?
      (fun enc => strContains (dictGetD req.headers "Accept-Encoding" "") enc) with
  | none => rfl
  | some e => rfl

theorem applyEncoding_body (req : HTTPRequest) (r : HTTPResponse) :
    (applyEncoding req r).body = r.body := by
  simp only [applyEncoding]
  cases ENCODER.find?
      (fun enc => strContains (dictGetD req.headers "Accept-Encoding" "") enc) with
  | none => rfl
  | some e => rfl

theorem applyEncoding_version (req : HTTPRequest) (r : HTTPResponse) :
    (applyEncoding req r).version = r.version := by
  simp only [applyEncoding]
  cases ENCODER.find?
      (fun enc => strContains (dictGetD req.headers "Accept-Encoding" "") enc) with
  | none => rfl
  | some e => rfl

/-! ### Claim theorems -/

/-- C1: `find_handler` returns a handler iff some registered binding's
method equals the request method exactly and its compiled pattern matches
the path (match-at-start semantics, embedded in `Pattern.pmatch`);
bindings are scanned in registration order and the first match wins
(every binding before the returned one fails); when no binding matches,
`find_handler` returns `none` and `handle_request` produces a 404
response. -/
theorem C1_router_resolve (method path : String) (fs : FS)
    (req : HTTPRequest) (hm : req.method = method) (hp : req.path = path) :
    ((find_handler method path).isSome ↔
      ∃ r ∈ routes, method = r.1 ∧ r.2.1.pmatch path = true)
    ∧ (∀ h, find_handler method path = some h →
        ∃ pre r post, routes = pre ++ r :: post ∧ r.2.2 = h
          ∧ method = r.1 ∧ r.2.1.pmatch path = true
          ∧ ∀ r' ∈ pre, ¬(method = r'.1 ∧ r'.2.1.pmatch path = true))
    ∧ (find_handler method path = none →
        (handle_request fs req).1.status = 404) := by
  refine ⟨?_, ?_, ?_⟩
  · simp [find_handler, List.find?_isSome]
  · intro h hfind
    simp only [find_handler, Option.map_eq_some'] at hfind
    obtain ⟨r, hr, hproj⟩ := hfind
    rw [List.find?_eq_some] at hr
    obtain ⟨hpr, pre, post, hsplit, hpre⟩ := hr
    have hpr' : method = r.1 ∧ r.2.1.pmatch path = true := by simpa using hpr
    refine ⟨pre, r, post, hsplit, hproj, hpr'.1, hpr'.2, ?_⟩
    intro r' hr'
    have h2 : ¬method = r'.1 ∨ r'.2.1.pmatch path = false := by
      simpa using hpre r' hr'
    rcases h2 with h2 | h2
    · exact fun hc => h2 hc.1
    · exact fun hc => by simp [h2] at hc
  · intro hnone
    simp [handle_request, route_response, hm, hp, hnone, applyEncoding_status,
      HTTPResponse.not_found]

/-- Witness for C1 at a concrete unmatched route. -/
theorem C1_router_resolve_witness :
    (handle_request [] ⟨"GET", "/nope", "HTTP/1.1", [], ""⟩).1.status = 404 :=
  (C1_router_resolve "GET" "/nope" [] ⟨"GET", "/nope", "HTTP/1.1", [], ""⟩
    rfl rfl).2.2 (by decide)

/-- The body loop only ever stops with `Content-Length ≤ len(body)`. -/
theorem recvBody_le (cl : Int) :
    ∀ fuel body chunks b n, recvBody cl fuel body chunks = some (b, n) →
      cl ≤ (b.length : Int) := by
  intro fuel
  induction fuel with
  | zero =>
    intro body chunks b n h
    simp [recvBody] at h
  | succ f ih =>
    intro body chunks b n h
    simp only [recvBody] at h
    by_cases hlt : (body.length : Int) < cl
    · rw [if_pos hlt] at h
      cases chunks with
      | nil =>
        simp only [Option.map_eq_some'] at h
        obtain ⟨p, hp, hpe⟩ := h
        have hb : p.1 = b := congrArg Prod.fst hpe
        exact hb ▸ ih body [] p.1 p.2 (by rw [← hp])
      | cons c rest =>
        simp only [Option.map_eq_some'] at h
        obtain ⟨p, hp, hpe⟩ := h
        have hb : p.1 = b := congrArg Prod.fst hpe
        exact hb ▸ ih (body ++ c) rest p.1 p.2 (by rw [← hp])
    · rw [if_neg hlt] at h
      have hb : body = b := congrArg Prod.fst (Option.some.inj h)
      rw [← hb]
      omega

/-- If the body is already long enough, the loop reads nothing. -/
theorem recvBody_already (cl : Int) (fuel : Nat) (body : String)
    (chunks : List String) (h : cl ≤ (body.length : Int)) (hf : 0 < fuel) :
    recvBody cl fuel body chunks = some (body, 0) := by
  cases fuel with
  | zero => exact absurd hf (by omega)
  | succ f =>
    have hnl : ¬ ((body.length : Int) < cl) := by omega
    simp [recvBody, hnl]

/-- C2 (amended): once the body loop stops, the body length is at least
the parsed `Content-Length` (it can exceed it: if the remainder after the
header delimiter or a received chunk overshoots, the loop stops with a
longer body); when the accumulated body is already long enough no read is
attempted; and an absent `Content-Length` header parses as `0`, for which
the loop performs no read and leaves the body exactly as the remainder
after the delimiter (which need not be empty). -/
theorem C2_body_completion (cl : Int) (fuel n : Nat) (body b : String)
    (chunks : List String) (hh : Headers)
    (hrun : recvBody cl fuel body chunks = some (b, n))
    (habs : dictGet hh "Content-Length" = none) :
    cl ≤ (b.length : Int)
    ∧ (cl ≤ (body.length : Int) → b = body ∧ n = 0)
    ∧ contentLength hh = some 0
    ∧ recvBody 0 1 body chunks = some (body, 0) := by
  refine ⟨recvBody_le cl fuel body chunks b n hrun, ?_, ?_, ?_⟩
  · intro hle
    have hf : 0 < fuel := by
      cases fuel with
      | zero => simp [recvBody] at hrun
      | succ f => omega
    have := recvBody_already cl fuel body chunks hle hf
    rw [this] at hrun
    have hp := Option.some.inj hrun
    exact ⟨(congrArg Prod.fst hp).symm, (congrArg Prod.snd hp).symm⟩
  · simp [contentLength, habs]
  · exact recvBody_already 0 1 body chunks (by omega) (by omega)

/-- Witness for C2 (amended) at a concrete run: `Content-Length` 3, empty
initial body, one 4-byte chunk; the loop stops after one read with a
4-byte body. -/
theorem C2_body_completion_witness :
    (3 : Int) ≤ ("abcd".length : Int)
    ∧ ((3 : Int) ≤ (("" : String).length : Int) → "abcd" = "" ∧ 1 = 0)
    ∧ contentLength [] = some 0
    ∧ recvBody 0 1 "" ["abcd"] = some ("", 0) :=
  C2_body_completion 3 5 1 "" "abcd" ["abcd"] [] (by decide) (by decide)

/-- The raw bytes of one `recv` carrying a whole pipelined request plus
one extra byte of body: `Content-Length` declares 1 byte but 2 bytes
follow the delimiter. -/
def rawC2 : String := "POST /x HTTP/1.1\r\nContent-Length: 1\r\n\r\nab"

/-- Counterexample to C2 as stated: for this request the parsed body is
`"ab"` (the delimiter's remainder), the declared `Content-Length` is 1,
the body loop attempts no read and stops immediately — yet the final body
length is 2, not the header's integer value 1; so "body length equals the
`Content-Length` value" fails. -/
theorem C2_counterexample :
    HTTPRequest.from_raw rawC2 =
      some ⟨"POST", "/x", "HTTP/1.1", [("Content-Length", "1")], "ab"⟩
    ∧ contentLength [("Content-Length", "1")] = some 1
    ∧ recvBody 1 5 "ab" [] = some ("ab", 0)
    ∧ ("ab" : String).length = 2
    ∧ ¬ (("ab" : String).length = 1) := by
  refine ⟨by decide, by decide, by decide, by decide, by decide⟩

/-! ### Routing facts for the concrete route table -/

theorem subEcho_append (tail : String) : subEcho ("/echo/" ++ tail) = tail := by
  show (⟨stripStart echoPre (echoPre ++ tail.data)⟩ : String) = tail
  rw [stripStart, if_pos (isPrefixOf_self_append _ _)]
  rw [List.drop_left echoPre tail.data]

theorem subFiles_append (cap : String) : subFiles ("/files/" ++ cap) = cap := by
  show (⟨stripStart filesPre (filesPre ++ cap.data)⟩ : String) = cap
  rw [stripStart, if_pos (isPrefixOf_self_append _ _)]
  rw [List.drop_left filesPre cap.data]

theorem find_handler_echo (tail : String) (hn : noNl tail.data = true) :
    find_handler "GET" ("/echo/" ++ tail) = some Handler.echo := by
  have h0 : Pattern.pmatch .rootP ("/echo/" ++ tail) = false := rfl
  have h2 : Pattern.pmatch .echoP ("/echo/" ++ tail) = true := by
    show (echoPre.isPrefixOf (echoPre ++ tail.data)
      && echoTailOk ((echoPre ++ tail.data).drop echoPre.length)) = true
    rw [isPrefixOf_self_append, List.drop_left echoPre tail.data]
    simp [echoTailOk, hn]
  simp [find_handler, routes, List.find?, h0, h2]

theorem find_handler_files_get (cap : String) :
    find_handler "GET" ("/files/" ++ cap) = some Handler.read_file := by
  have h0 : Pattern.pmatch .rootP ("/files/" ++ cap) = false := rfl
  have h1 : Pattern.pmatch .echoP ("/files/" ++ cap) = false := rfl
  have h2 : Pattern.pmatch .agentP ("/files/" ++ cap) = false := rfl
  have h3 : Pattern.pmatch .filesP ("/files/" ++ cap) = true := by
    show (filesPre.isPrefixOf (filesPre ++ cap.data)) = true
    exact isPrefixOf_self_append _ _
  simp [find_handler, routes, List.find?, h0, h1, h2, h3]

/-- C3: one connection-loop iteration closes the connection iff the
request's `Connection` header equals `close` (case-sensitive exact
comparison); in that case the response carries `Connection: close`.  The
statement quantifies over every request and filesystem, so it holds
regardless of endpoint; when the header differs the `Bool` is `false` and
the loop continues with the next request on the same socket. -/
theorem C3_connection_close (fs : FS) (req : HTTPRequest) :
    ((connectionIteration fs req).2.2 = true ↔
      dictGet req.headers "Connection" = some "close")
    ∧ (dictGet req.headers "Connection" = some "close" →
        dictGet (connectionIteration fs req).1.headers "Connection"
          = some "close") := by
  constructor
  · by_cases h : dictGet req.headers "Connection" = some "close"
    · simp [connectionIteration, h]
    · simp [connectionIteration, h]
  · intro h
    simp [connectionIteration, h, dictGet_dictSet_self]

/-- Witness for C3 at a concrete request carrying `Connection: close`. -/
theorem C3_connection_close_witness :
    dictGet (connectionIteration []
        ⟨"GET", "/", "HTTP/1.1", [("Connection", "close")], ""⟩).1.headers
      "Connection" = some "close" :=
  (C3_connection_close [] ⟨"GET", "/", "HTTP/1.1", [("Connection", "close")], ""⟩).2
    (by decide)

/-- The spec's notion of negotiation: split the `Accept-Encoding` value
on `,`, strip each token; gzip is accepted iff some token equals
`"gzip"`.  This definition follows the spec's words, for comparison
against the code's substring test. -/
def specGzipTokens (v : String) : List String :=
  (splitSepStr "," v).map pyStrip

/-- Counterexample to C4 as stated: `Accept-Encoding: supergzip` has the
single comma-separated trimmed token `supergzip`, which differs from
`gzip`, so by the claim the response must pass through with no
`Content-Encoding` header — but the code's substring test finds `gzip`
inside `supergzip` and sets `Content-Encoding: gzip`. -/
theorem C4_counterexample :
    specGzipTokens "supergzip" = ["supergzip"]
    ∧ ("supergzip" : String) ≠ "gzip"
    ∧ dictGet ((handle_request []
          ⟨"GET", "/", "HTTP/1.1", [("Accept-Encoding", "supergzip")], ""⟩).1).headers
        "Content-Encoding" = some "gzip" := by
  refine ⟨by decide, by decide, by decide⟩

/-- C4 (amended): negotiation tests whether the string `gzip` occurs as a
substring of the `Accept-Encoding` value (not whether a comma-separated
trimmed token equals `gzip`); an absent header defaults to `""`, which
contains no such substring; whenever the substring is absent the response
of the dispatch stage passes through unmodified, with no
`Content-Encoding` header (no handler ever sets one). -/
theorem C4_negotiation (fs : FS) (req : HTTPRequest)
    (h : strContains (dictGetD req.headers "Accept-Encoding" "") "gzip" = false) :
    (handle_request fs req).1 = (route_response fs req).1
    ∧ dictGet (handle_request fs req).1.headers "Content-Encoding" = none
    ∧ (dictGet req.headers "Accept-Encoding" = none →
        strContains (dictGetD req.headers "Accept-Encoding" "") "gzip" = false) := by
  have he : applyEncoding req (route_response fs req).1 = (route_response fs req).1 :=
    applyEncoding_of_no_gzip req _ h
  refine ⟨he, ?_, ?_⟩
  · show dictGet (applyEncoding req (route_response fs req).1).headers
      "Content-Encoding" = none
    rw [he]
    rcases hf : find_handler req.method req.path with _ | hdl
    · simp [route_response, hf]
      rfl
    · simp [route_response, hf, runHandler_no_contentEncoding]
  · intro habs
    simp [dictGetD, habs]
    decide

/-- Witness for C4 (amended) at a concrete request whose
`Accept-Encoding` is `identity`. -/
theorem C4_negotiation_witness :
    (handle_request []
        ⟨"GET", "/", "HTTP/1.1", [("Accept-Encoding", "identity")], ""⟩).1
      = (route_response []
        ⟨"GET", "/", "HTTP/1.1", [("Accept-Encoding", "identity")], ""⟩).1
    ∧ dictGet (handle_request []
        ⟨"GET", "/", "HTTP/1.1", [("Accept-Encoding", "identity")], ""⟩).1.headers
        "Content-Encoding" = none
    ∧ (dictGet [("Accept-Encoding", "identity")] "Accept-Encoding" = none →
        strContains (dictGetD [("Accept-Encoding", "identity")]
          "Accept-Encoding" "") "gzip" = false) :=
  C4_negotiation [] ⟨"GET", "/", "HTTP/1.1", [("Accept-Encoding", "identity")], ""⟩
    (by decide)

/-- Serialization of a response whose `Content-Encoding` header is
`gzip`: the emitted body is the compressed body and `Content-Length` is
overwritten with the compressed byte length. -/
theorem toBytes_encoded (compress : String → List Nat) (r : HTTPResponse)
    (reason : String) (hst : STASTUS r.status = some reason)
    (hce : dictGet r.headers "Content-Encoding" = some "gzip") :
    HTTPResponse.toBytes compress r =
      some (strEncode (r.version ++ " " ++ toString r.status ++ " " ++ reason
          ++ "\r\n"
          ++ headersToStr (dictSet r.headers "Content-Length"
               (toString (compress r.body).length))
          ++ "\r\n")
        ++ compress r.body) := by
  have hd : dictGetD r.headers "Content-Encoding" "" = "gzip" := by
    simp [dictGetD, hce]
  simp only [HTTPResponse.toBytes, hst]
  rw [if_pos (by simp [hd])]

/-- C5: when the request's `Accept-Encoding` value contains `gzip`, the
response that reaches serialization keeps the handler's text body, has
`Content-Encoding: gzip`, and (whenever its status is serializable) its
serialized form consists of a head whose header block carries
`Content-Length` equal to the compressed byte length, followed by the
gzip-compressed form of the handler's text body. -/
theorem C5_gzip_applied (fs : FS) (req : HTTPRequest)
    (compress : String → List Nat)
    (h : strContains (dictGetD req.headers "Accept-Encoding" "") "gzip" = true) :
    (handle_request fs req).1.body = (route_response fs req).1.body
    ∧ dictGet (handle_request fs req).1.headers "Content-Encoding" = some "gzip"
    ∧ ∀ reason, STASTUS (handle_request fs req).1.status = some reason →
        HTTPResponse.toBytes compress (handle_request fs req).1 =
          some (strEncode ((handle_request fs req).1.version ++ " "
              ++ toString (handle_request fs req).1.status ++ " " ++ reason
              ++ "\r\n"
              ++ headersToStr (dictSet (handle_request fs req).1.headers
                   "Content-Length"
                   (toString (compress (handle_request fs req).1.body).length))
              ++ "\r\n")
            ++ compress (handle_request fs req).1.body)
        ∧ dictGet (dictSet (handle_request fs req).1.headers "Content-Length"
              (toString (compress (handle_request fs req).1.body).length))
            "Content-Length"
          = some (toString (compress (handle_request fs req).1.body).length) := by
  have he : (handle_request fs req).1 =
      { (route_response fs req).1 with
          headers := dictSet (route_response fs req).1.headers
            "Content-Encoding" "gzip" } := by
    show applyEncoding req (route_response fs req).1 = _
    exact applyEncoding_of_gzip req _ h
  refine ⟨by rw [he], ?_, ?_⟩
  · rw [he]
    exact dictGet_dictSet_self _ _ _
  · intro reason hst
    refine ⟨toBytes_encoded compress _ reason hst ?_, dictGet_dictSet_self _ _ _⟩
    rw [he]
    exact dictGet_dictSet_self _ _ _

/-- A stand-in for `gzip.compress` used to instantiate witnesses: any
function of the right type will do, since the theorems hold for every
`compress`; this one prepends the two gzip magic bytes and never returns
an empty output. -/
def gzipStub (s : String) : List Nat :=
  31 :: 139 :: strEncode s

/-- `GET /echo/abc` with `Accept-Encoding: gzip`. -/
def reqC5 : HTTPRequest :=
  ⟨"GET", "/echo/abc", "HTTP/1.1", [("Accept-Encoding", "gzip")], ""⟩

/-- Witness for C5 at `GET /echo/abc` with `Accept-Encoding: gzip` and
the stub compressor. -/
theorem C5_gzip_applied_witness :
    (handle_request [] reqC5).1.body = (route_response [] reqC5).1.body
    ∧ dictGet (handle_request [] reqC5).1.headers "Content-Encoding"
        = some "gzip"
    ∧ (HTTPResponse.toBytes gzipStub (handle_request [] reqC5).1 =
        some (strEncode ((handle_request [] reqC5).1.version ++ " "
            ++ toString (handle_request [] reqC5).1.status ++ " " ++ "OK"
            ++ "\r\n"
            ++ headersToStr (dictSet (handle_request [] reqC5).1.headers
                 "Content-Length"
                 (toString (gzipStub (handle_request [] reqC5).1.body).length))
            ++ "\r\n")
          ++ gzipStub (handle_request [] reqC5).1.body)
      ∧ dictGet (dictSet (handle_request [] reqC5).1.headers "Content-Length"
            (toString (gzipStub (handle_request [] reqC5).1.body).length))
          "Content-Length"
        = some (toString (gzipStub (handle_request [] reqC5).1.body).length)) :=
  ⟨(C5_gzip_applied [] reqC5 gzipStub (by decide)).1,
   (C5_gzip_applied [] reqC5 gzipStub (by decide)).2.1,
   (C5_gzip_applied [] reqC5 gzipStub (by decide)).2.2 "OK" (by decide)⟩

/-- Concatenation of everything the peer sends before closing. -/
def concatAll : List (List Char) → List Char
  | [] => []
  | c :: rest => c ++ concatAll rest

/-- If the delimiter does not occur in the accumulated bytes plus
everything still to come, the framing loop never stops. -/
theorem recvHeadersLoop_none :
    ∀ (fuel : Nat) (acc : List Char) (chunks : List (List Char)),
      hasSub "\r\n\r\n".data (acc ++ concatAll chunks) = false →
      recvHeadersLoop fuel acc chunks = none := by
  intro fuel
  induction fuel with
  | zero => intro acc chunks h; rfl
  | succ f ih =>
    intro acc chunks h
    have hacc : hasSub "\r\n\r\n".data acc = false := by
      cases hs : hasSub "\r\n\r\n".data acc with
      | false => rfl
      | true =>
        have := hasSub_append_right "\r\n\r\n".data (concatAll chunks) acc hs
        rw [this] at h
        exact absurd h (by simp)
    simp only [recvHeadersLoop, hacc, Bool.false_eq_true, if_false]
    cases chunks with
    | nil =>
      exact ih acc [] (by simpa using h)
    | cons c rest =>
      refine ih (acc ++ c) rest ?_
      rw [List.append_assoc]
      exact h

/-- C6: if the bytes the peer sends before closing never contain the
header delimiter `\r\n\r\n`, the framing loop of `handle_client` never
exits — for every fuel bound it is still running (`none`) — because
`recv` on the closed socket returns empty data forever while the loop
keeps waiting for the delimiter; consequently no response is ever sent on
that connection, but the handling unit also never terminates, contrary to
the claim. -/
theorem C6_framing_no_termination (chunks : List (List Char)) (fuel : Nat)
    (h : hasSub "\r\n\r\n".data (concatAll chunks) = false) :
    recvHeadersLoop fuel [] chunks = none :=
  recvHeadersLoop_none fuel [] chunks (by simpa using h)

/-- Witness for C6: the peer sends one chunk, `GET / HTTP/1.1\r\n`, and
closes; with fuel 9 (or any other bound) the loop has not terminated. -/
theorem C6_framing_no_termination_witness :
    recvHeadersLoop 9 [] ["GET / HTTP/1.1\r\n".data] = none :=
  C6_framing_no_termination ["GET / HTTP/1.1\r\n".data] 9 (by decide)

/-- `GET /echo/é`: the echoed tail is one character but two UTF-8
bytes. -/
def reqC7 : HTTPRequest := ⟨"GET", "/echo/é", "HTTP/1.1", [], ""⟩

/-- Counterexample to C7 as stated: for `GET /echo/é` the reflected
string is `é`, the handler sets `Content-Length: 1` (Python
`len("é") == 1`), but the body serializes to 2 UTF-8 bytes, so
`Content-Length` does not equal the byte length of the reflected
string. -/
theorem C7_counterexample :
    (echo reqC7).body = "é"
    ∧ dictGet (echo reqC7).headers "Content-Length" = some "1"
    ∧ (strEncode (echo reqC7).body).length = 2
    ∧ ¬ ((strEncode (echo reqC7).body).length = 1) := by
  refine ⟨by decide, by decide, by decide, by decide⟩

/-- C7 (amended): every `GET /echo/{tail}` request (with no newline in
the tail, so that the compiled pattern matches) routes to the `echo`
handler, whose response has status 200, body equal to the captured tail,
`Content-Type: text/plain`, and `Content-Length` equal to the
**character count** of the reflected string — which equals its byte
length whenever the tail is ASCII; in particular `GET /echo/abc` yields
status 200, body `abc` and `Content-Length: 3`. -/
theorem C7_echo (fs : FS) (tail : String) (req : HTTPRequest)
    (hm : req.method = "GET") (hp : req.path = "/echo/" ++ tail)
    (hn : noNl tail.data = true) :
    find_handler req.method req.path = some Handler.echo
    ∧ (runHandler fs Handler.echo req).1 = echo req
    ∧ (echo req).status = 200
    ∧ (echo req).body = tail
    ∧ dictGet (echo req).headers "Content-Type" = some "text/plain"
    ∧ dictGet (echo req).headers "Content-Length" = some (toString tail.length)
    ∧ (tail.data.all (fun c => c.toNat < 128) = true →
        (strEncode tail).length = tail.length) := by
  have hsub : subEcho req.path = tail := by
    rw [hp]
    exact subEcho_append tail
  refine ⟨?_, rfl, rfl, ?_, rfl, ?_, ?_⟩
  · rw [hm, hp]
    exact find_handler_echo tail hn
  · show subEcho req.path = tail
    exact hsub
  · show dictGet [("Content-Type", "text/plain"),
      ("Content-Length", toString (subEcho req.path).length)] "Content-Length"
      = some (toString tail.length)
    rw [hsub]
    rfl
  · exact fun ha => strEncode_length_ascii tail ha

/-- Witness for C7 (amended) at `GET /echo/abc`. -/
theorem C7_echo_witness :
    find_handler "GET" "/echo/abc" = some Handler.echo
    ∧ (runHandler [] Handler.echo ⟨"GET", "/echo/abc", "HTTP/1.1", [], ""⟩).1
        = echo ⟨"GET", "/echo/abc", "HTTP/1.1", [], ""⟩
    ∧ (echo ⟨"GET", "/echo/abc", "HTTP/1.1", [], ""⟩).status = 200
    ∧ (echo ⟨"GET", "/echo/abc", "HTTP/1.1", [], ""⟩).body = "abc"
    ∧ dictGet (echo ⟨"GET", "/echo/abc", "HTTP/1.1", [], ""⟩).headers
        "Content-Type" = some "text/plain"
    ∧ dictGet (echo ⟨"GET", "/echo/abc", "HTTP/1.1", [], ""⟩).headers
        "Content-Length" = some (toString ("abc" : String).length)
    ∧ (("abc" : String).data.all (fun c => c.toNat < 128) = true →
        (strEncode "abc").length = ("abc" : String).length) :=
  C7_echo [] "abc" ⟨"GET", "/echo/abc", "HTTP/1.1", [], ""⟩ rfl rfl (by decide)

/-- C8: every `GET /files/{capture}` request routes to `read_file`, which
looks the capture up under the target directory: when the file is absent
the response is the 404 `not_found`; when it exists the response has
status 200, `Content-Type: application/octet-stream`, body equal to the
file content, and `Content-Length` equal to the file's on-disk byte size
as queried before the read (in this sequential model the filesystem
cannot change between the size query and the read, so the size is the
byte length of the content). -/
theorem C8_files_read (fs : FS) (req : HTTPRequest) (cap : String)
    (hm : req.method = "GET") (hp : req.path = "/files/" ++ cap) :
    find_handler req.method req.path = some Handler.read_file
    ∧ subFiles req.path = cap
    ∧ (fsGet fs cap = none →
        read_file fs req = HTTPResponse.not_found
        ∧ (read_file fs req).status = 404)
    ∧ (∀ content, fsGet fs cap = some content →
        (read_file fs req).status = 200
        ∧ (read_file fs req).body = content
        ∧ dictGet (read_file fs req).headers "Content-Type"
            = some "application/octet-stream"
        ∧ dictGet (read_file fs req).headers "Content-Length"
            = some (toString (strEncode content).length)) := by
  have hsub : subFiles req.path = cap := by
    rw [hp]
    exact subFiles_append cap
  refine ⟨?_, hsub, ?_, ?_⟩
  · rw [hm, hp]
    exact find_handler_files_get cap
  · intro habs
    have : read_file fs req = HTTPResponse.not_found := by
      simp [read_file, hsub, habs]
    exact ⟨this, by rw [this]; rfl⟩
  · intro content hsome
    have hr : read_file fs req =
        HTTPResponse.ok
          [("Content-Type", "application/octet-stream"),
           ("Content-Length", toString (strEncode content).length)]
          content := by
      simp [read_file, hsub, hsome]
    rw [hr]
    exact ⟨rfl, rfl, rfl, rfl⟩

/-- Witness for C8 with a one-file filesystem, hit and evaluated at
`GET /files/hello.txt`. -/
theorem C8_files_read_witness :
    find_handler "GET" "/files/hello.txt" = some Handler.read_file
    ∧ subFiles "/files/hello.txt" = "hello.txt"
    ∧ ((read_file [("hello.txt", "hi")]
          ⟨"GET", "/files/hello.txt", "HTTP/1.1", [], ""⟩).status = 200
      ∧ (read_file [("hello.txt", "hi")]
          ⟨"GET", "/files/hello.txt", "HTTP/1.1", [], ""⟩).body = "hi"
      ∧ dictGet (read_file [("hello.txt", "hi")]
          ⟨"GET", "/files/hello.txt", "HTTP/1.1", [], ""⟩).headers "Content-Type"
          = some "application/octet-stream"
      ∧ dictGet (read_file [("hello.txt", "hi")]
          ⟨"GET", "/files/hello.txt", "HTTP/1.1", [], ""⟩).headers "Content-Length"
          = some (toString (strEncode "hi").length)) :=
  ⟨(C8_files_read [("hello.txt", "hi")]
      ⟨"GET", "/files/hello.txt", "HTTP/1.1", [], ""⟩ "hello.txt" rfl rfl).1,
   (C8_files_read [("hello.txt", "hi")]
      ⟨"GET", "/files/hello.txt", "HTTP/1.1", [], ""⟩ "hello.txt" rfl rfl).2.1,
   (C8_files_read [("hello.txt", "hi")]
      ⟨"GET", "/files/hello.txt", "HTTP/1.1", [], ""⟩ "hello.txt" rfl rfl).2.2.2
     "hi" (by decide)⟩

/-- Serializability of a status: `STASTUS` knows exactly 200, 201, 404. -/
theorem STASTUS_isSome (s : Nat) :
    (STASTUS s).isSome = true ↔ (s = 200 ∨ s = 201 ∨ s = 404) := by
  by_cases h200 : s = 200
  · simp [STASTUS, h200]
  · by_cases h201 : s = 201
    · simp [STASTUS, h200, h201]
    · by_cases h404 : s = 404
      · simp [STASTUS, h200, h201, h404]
      · simp [STASTUS, h200, h201, h404]

/-- C9: serialization emits the status line
`{version} {status} {reasonPhrase}\r\n`, then each header as
`{name}: {value}\r\n` in insertion order (`headersToStr` folds the header
list in order), then a blank line, then the body bytes; the reason phrase
is `OK` for 200, `Created` for 201, `Not Found` for 404; and a response
is serializable (`toBytes` is `some`) precisely for those three
statuses — any other status has no representable output. -/
theorem C9_serialization (r : HTTPResponse) (compress : String → List Nat) :
    ((HTTPResponse.toBytes compress r).isSome = true ↔
      (r.status = 200 ∨ r.status = 201 ∨ r.status = 404))
    ∧ STASTUS 200 = some "OK"
    ∧ STASTUS 201 = some "Created"
    ∧ STASTUS 404 = some "Not Found"
    ∧ (∀ reason, STASTUS r.status = some reason →
        dictGetD r.headers "Content-Encoding" "" = "" →
        HTTPResponse.toBytes compress r =
          some (strEncode (r.version ++ " " ++ toString r.status ++ " "
              ++ reason ++ "\r\n" ++ headersToStr r.headers ++ "\r\n")
            ++ strEncode r.body)) := by
  refine ⟨?_, rfl, rfl, rfl, ?_⟩
  · rw [← STASTUS_isSome r.status]
    cases hst : STASTUS r.status with
    | none => simp [HTTPResponse.toBytes, hst]
    | some reason =>
      simp only [HTTPResponse.toBytes, hst, Option.isSome_some]
      constructor
      · intro _
        trivial
      · intro _
        split <;> rfl
  · intro reason hst hce
    simp only [HTTPResponse.toBytes, hst]
    rw [if_neg (by simp [hce])]

/-- Witness for C9 at a concrete 404 response with one custom header. -/
theorem C9_serialization_witness :
    HTTPResponse.toBytes gzipStub ⟨"HTTP/1.1", 404, [("Host", "x")], "hi"⟩ =
      some (strEncode ("HTTP/1.1" ++ " " ++ toString (404 : Nat) ++ " "
          ++ "Not Found" ++ "\r\n" ++ headersToStr [("Host", "x")] ++ "\r\n")
        ++ strEncode "hi") :=
  (C9_serialization ⟨"HTTP/1.1", 404, [("Host", "x")], "hi"⟩ gzipStub).2.2.2.2
    "Not Found" (by decide) (by decide)

/-- C10: negotiation runs after dispatch on every response, including the
404 built for an unmatched route: when no route matches and the
`Accept-Encoding` value contains the substring `gzip`, the response is
the 404 with empty body, it carries `Content-Encoding: gzip`, and its
serialized form ends in `compress ""` — the compression of the empty
body — which is non-empty bytes whenever the compressor (like gzip, whose
output always contains header and trailer) returns non-empty output on
empty input. -/
theorem C10_encoding_after_dispatch (fs : FS) (req : HTTPRequest)
    (compress : String → List Nat)
    (hnf : find_handler req.method req.path = none)
    (henc : strContains (dictGetD req.headers "Accept-Encoding" "") "gzip" = true)
    (hgz : compress "" ≠ []) :
    (handle_request fs req).1.status = 404
    ∧ (handle_request fs req).1.body = ""
    ∧ dictGet (handle_request fs req).1.headers "Content-Encoding" = some "gzip"
    ∧ HTTPResponse.toBytes compress (handle_request fs req).1 =
        some (strEncode ("HTTP/1.1 404 Not Found\r\n"
            ++ headersToStr [("Content-Encoding", "gzip"),
                 ("Content-Length", toString (compress "").length)]
            ++ "\r\n")
          ++ compress "")
    ∧ compress "" ≠ [] := by
  have hroute : route_response fs req = (HTTPResponse.not_found, fs) := by
    simp [route_response, hnf]
  have hr : (handle_request fs req).1 =
      ⟨"HTTP/1.1", 404, [("Content-Encoding", "gzip")], ""⟩ := by
    show applyEncoding req (route_response fs req).1 = _
    rw [hroute, applyEncoding_of_gzip req _ henc]
    rfl
  refine ⟨by rw [hr], by rw [hr], by rw [hr]; rfl, ?_, hgz⟩
  rw [hr]
  rw [toBytes_encoded compress ⟨"HTTP/1.1", 404, [("Content-Encoding", "gzip")], ""⟩
    "Not Found" rfl rfl]
  have hA : ("HTTP/1.1" : String) ++ " " ++ toString (404 : Nat) ++ " "
      ++ "Not Found" ++ "\r\n" = "HTTP/1.1 404 Not Found\r\n" := by decide
  have hs : dictSet [("Content-Encoding", "gzip")] "Content-Length"
      (toString (compress ("" : String)).length)
      = [("Content-Encoding", "gzip"),
         ("Content-Length", toString (compress ("" : String)).length)] := by
    rfl
  rw [hs, hA]

/-- The request used to witness C10: unmatched route, gzip accepted. -/
def reqC10 : HTTPRequest :=
  ⟨"GET", "/nothing", "HTTP/1.1", [("Accept-Encoding", "gzip")], ""⟩

/-- Witness for C10 at `GET /nothing` with the stub compressor. -/
theorem C10_encoding_after_dispatch_witness :
    (handle_request [] reqC10).1.status = 404
    ∧ (handle_request [] reqC10).1.body = ""
    ∧ dictGet (handle_request [] reqC10).1.headers "Content-Encoding"
        = some "gzip"
    ∧ HTTPResponse.toBytes gzipStub (handle_request [] reqC10).1 =
        some (strEncode ("HTTP/1.1 404 Not Found\r\n"
            ++ headersToStr [("Content-Encoding", "gzip"),
                 ("Content-Length", toString (gzipStub "").length)]
            ++ "\r\n")
          ++ gzipStub "")
    ∧ gzipStub "" ≠ [] :=
  C10_encoding_after_dispatch [] reqC10 gzipStub (by decide) (by decide)
    (by decide)
